import Mathlib

/-!
Verification of the tic-tac-toe board core (`TicTacToeBoard` and its methods)
and of the duplicate-line-counting utility (`dup.go`) of this repository,
against the repository specification.

Embedding conventions:
* Go `rune` (an `int32`) is embedded as `Int`; `0` is the empty-cell sentinel,
  exactly as in the source.  The player symbols actually reachable from the CLI
  are bytes of an argv string, hence small and nonnegative, so 32-bit wraparound
  is unreachable and is not modelled.
* Go `int` is embedded as `Int` without 64-bit wraparound: every quantity held
  (dimensions, free-spot count, loop counters) is bounded by the size of an
  allocated board, far below 2^63.
* `board` is a `List (List Int)`, indexed `board[y][x]` like the source.
* `panic` in `NewTicTacToeBoard` is embedded as `Option.none` (a fatal
  configuration error at startup).
* The `for` loop inside the `getLineLength` closure is embedded with explicit
  fuel `tb.board.length + row length`.  Every call site passes a nonzero
  direction offset, so the walk moves by at least one cell per iteration along
  some axis and leaves the bounds after at most `max height width` iterations;
  the fuel therefore never runs out on any call the program makes, and the
  fueled function computes exactly the run length the Go loop computes.
-/

/-- Represents an arbitrary tic-tac-toe board (struct `TicTacToeBoard`). -/
structure TicTacToeBoard where
  /-- Minimum number of consecutive cells a player must have in a straight
  line to win. -/
  winLineLength : Int
  /-- Board of cells; `0` = empty cell, other values are player marks.
  Indexed by `board[y][x]`. -/
  board : List (List Int)
  /-- Number of free spots for players to put marks in. -/
  freeSpots : Int
  /-- Winner of the game, `0` if there is no winner yet. -/
  winner : Int
  /-- Whether the game ended in a tie. -/
  tie : Bool
  deriving DecidableEq, Repr

namespace TicTacToeBoard

/-- Board width, `len(tb.board[0])` in the source.  The Go expression would
panic on a board with no rows; construction guarantees at least one row, and
`headD` supplies the (unreachable) default. -/
def width (tb : TicTacToeBoard) : Nat := (tb.board.headD []).length

/-- Board height, `len(tb.board)` in the source. -/
def height (tb : TicTacToeBoard) : Nat := tb.board.length

/-- Raw read of `tb.board[y][x]` with out-of-range indices defaulting to `0`.
The program only performs this read under an `InBounds` guard; the checked
variant `readCell?` below has no default and witnesses that fact. -/
def getCell (tb : TicTacToeBoard) (x y : Int) : Int :=
  (tb.board.getD y.toNat []).getD x.toNat 0

/-- Raw write `tb.board[y][x] = v`; out-of-range indices leave the board
unchanged (the program only writes under an `InBounds` guard). -/
def setCell (b : List (List Int)) (x y : Int) (v : Int) : List (List Int) :=
  b.set y.toNat ((b.getD y.toNat []).set x.toNat v)

/-- `InBounds`: checks if `x, y` are within the bounds of the board. -/
def InBounds (tb : TicTacToeBoard) (x y : Int) : Bool :=
  decide (0 ≤ x) && decide (x < (tb.width : Int)) &&
  decide (0 ≤ y) && decide (y < (tb.height : Int))

/-- `GetMark`: returns the mark at point `x, y`; `0` when out of bounds. -/
def GetMark (tb : TicTacToeBoard) (x y : Int) : Int :=
  if !(tb.InBounds x y) then 0 else tb.getCell x y

/-- `IsSpotEmpty`: whether the point `x, y` is empty, i.e. no player has
placed a mark there. -/
def IsSpotEmpty (tb : TicTacToeBoard) (x y : Int) : Bool :=
  tb.GetMark x y == 0

/-- `IsGameOver`: the game is over if there is a tie or a winner. -/
def IsGameOver (tb : TicTacToeBoard) : Bool :=
  tb.tie || tb.winner != 0

/-- Fuel bound for the `getLineLength` walk; see the header comment. -/
def lineFuel (tb : TicTacToeBoard) : Nat := tb.height + tb.width

/-- Body of the `getLineLength` closure: the `for` loop counting consecutive
cells equal to `player` starting at `(x, y)` and stepping by `(xo, yo)`. -/
def getLineLengthAux (tb : TicTacToeBoard) (player : Int) :
    Nat → Int → Int → Int → Int → Int
  | 0, _, _, _, _ => 0
  | fuel + 1, x, y, xo, yo =>
    if tb.InBounds x y && tb.getCell x y == player then
      1 + getLineLengthAux tb player fuel (x + xo) (y + yo) xo yo
    else 0

/-- The `getLineLength` closure of `PlaceMove`: number of consecutive cells
holding `player`'s mark strictly in direction `(xo, yo)` from `(x, y)`
(the closure first advances by the offset, then loops). -/
def getLineLength (tb : TicTacToeBoard) (player : Int)
    (x y xo yo : Int) : Int :=
  getLineLengthAux tb player tb.lineFuel (x + xo) (y + yo) xo yo

/-- The four direction vectors of `PlaceMove`'s `DirOffsets` array. -/
def DirOffsets : List (Int × Int) := [(0, 1), (1, 1), (1, 0), (1, -1)]

/-- The `for ... range DirOffsets` loop of `PlaceMove`: `true` iff it reaches
a direction whose total run length meets the threshold; the loop `break`s at
the first such direction, which the early-return recursion mirrors. -/
def scanWinAux (tb : TicTacToeBoard) (x y player : Int) :
    List (Int × Int) → Bool
  | [] => false
  | d :: rest =>
    let dirLength := tb.getLineLength player x y d.1 d.2
    let oppDirLength := tb.getLineLength player x y (-d.1) (-d.2)
    if tb.winLineLength ≤ 1 + dirLength + oppDirLength then true
    else scanWinAux tb x y player rest

/-- Whether `PlaceMove`'s direction loop declares `player` the winner for the
cell just placed at `(x, y)`. -/
def scanWin (tb : TicTacToeBoard) (x y player : Int) : Bool :=
  scanWinAux tb x y player DirOffsets

/-- The state after the two mutation lines `tb.board[y][x] = player` and
`tb.freeSpots--` of `PlaceMove`. -/
def afterMark (tb : TicTacToeBoard) (x y player : Int) : TicTacToeBoard :=
  { tb with board := setCell tb.board x y player, freeSpots := tb.freeSpots - 1 }

/-- `PlaceMove`: places a player's mark down on the board, then updates the
state of the game.  Returns the board unchanged when the early-return guard
fires.  The direction loop is `scanWin`; setting `tb.winner = player` and
breaking is embedded as the conditional winner update. -/
def PlaceMove (tb : TicTacToeBoard) (x y player : Int) : TicTacToeBoard :=
  if tb.IsGameOver || !(tb.InBounds x y) || tb.getCell x y != 0 ||
      tb.freeSpots == 0 then
    tb
  else
    let tb1 := tb.afterMark x y player
    let tb2 := if scanWin tb1 x y player then { tb1 with winner := player }
      else tb1
    if tb2.winner == 0 && tb2.freeSpots == 0 then { tb2 with tie := true }
    else tb2

end TicTacToeBoard

/-- `NewTicTacToeBoard`: creates a new board; `none` embeds the `panic`
calls (fatal configuration errors).  Note the source rejects only
`winLineLength == 0`, not negative values. -/
def NewTicTacToeBoard (winLineLength boardWidth boardHeight : Int) :
    Option TicTacToeBoard :=
  if winLineLength == 0 then none
  else if boardWidth < 1 || boardHeight < 1 then none
  else some
    { winLineLength := winLineLength
      board := List.replicate boardHeight.toNat
        (List.replicate boardWidth.toNat 0)
      freeSpots := boardWidth * boardHeight
      winner := 0
      tie := false }

namespace TicTacToeBoard

/-- The early-return guard of `PlaceMove` is false: the game is not over, the
coordinate is in bounds, the target cell is unmarked, and free spots remain.
Exactly the placements the program accepts. -/
def Accepted (tb : TicTacToeBoard) (x y : Int) : Prop :=
  tb.IsGameOver = false ∧ tb.InBounds x y = true ∧ tb.getCell x y = 0 ∧
    tb.freeSpots ≠ 0

instance (tb : TicTacToeBoard) (x y : Int) : Decidable (tb.Accepted x y) := by
  unfold Accepted; infer_instance

/-- Well-formedness established by `NewTicTacToeBoard`: at least one row, and
every row has the width of row `0` (the width `len(tb.board[0])` measures). -/
def WF (tb : TicTacToeBoard) : Prop :=
  0 < tb.board.length ∧ ∀ row ∈ tb.board, row.length = tb.width

instance (tb : TicTacToeBoard) : Decidable tb.WF := by
  unfold WF; infer_instance

/-- Checked read of `tb.board[y][x]`: `none` whenever either index is out of
range, exactly where the Go expression would panic. -/
def readCell? (b : List (List Int)) (x y : Int) : Option Int :=
  if 0 ≤ x ∧ 0 ≤ y then
    (b.get? y.toNat).bind fun row => row.get? x.toNat
  else none

/-- Checked write `tb.board[y][x] = v`: `none` whenever either index is out
of range, exactly where the Go assignment would panic. -/
def writeCell? (b : List (List Int)) (x y v : Int) :
    Option (List (List Int)) :=
  if 0 ≤ x ∧ 0 ≤ y then
    (b.get? y.toNat).bind fun row =>
      (row.get? x.toNat).map fun _ => b.set y.toNat (row.set x.toNat v)
  else none

/-- `GetMark` with its single grid access checked. -/
def GetMarkChecked (tb : TicTacToeBoard) (x y : Int) : Option Int :=
  if !(tb.InBounds x y) then some 0 else readCell? tb.board x y

/-- The `getLineLength` loop with its grid access checked; the access is
attempted only after the `InBounds` conjunct of the loop condition holds,
mirroring Go's short-circuit evaluation. -/
def getLineLengthCheckedAux (tb : TicTacToeBoard) (player : Int) :
    Nat → Int → Int → Int → Int → Option Int
  | 0, _, _, _, _ => some 0
  | fuel + 1, x, y, xo, yo =>
    if tb.InBounds x y then
      (readCell? tb.board x y).bind fun cell =>
        if cell == player then
          (getLineLengthCheckedAux tb player fuel (x + xo) (y + yo) xo yo).map
            (1 + ·)
        else some 0
    else some 0

/-- Checked `getLineLength` closure. -/
def getLineLengthChecked (tb : TicTacToeBoard) (player : Int)
    (x y xo yo : Int) : Option Int :=
  getLineLengthCheckedAux tb player tb.lineFuel (x + xo) (y + yo) xo yo

/-- Checked direction loop of `PlaceMove`. -/
def scanWinCheckedAux (tb : TicTacToeBoard) (x y player : Int) :
    List (Int × Int) → Option Bool
  | [] => some false
  | d :: rest =>
    (tb.getLineLengthChecked player x y d.1 d.2).bind fun dirLength =>
      (tb.getLineLengthChecked player x y (-d.1) (-d.2)).bind
        fun oppDirLength =>
          if tb.winLineLength ≤ 1 + dirLength + oppDirLength then some true
          else scanWinCheckedAux tb x y player rest

/-- `PlaceMove` with every grid access (the guard's occupancy test, the mark
assignment, and every read of the run-length scan) checked: `none` marks an
access the Go program would have performed with an out-of-range index. -/
def PlaceMoveChecked (tb : TicTacToeBoard) (x y player : Int) :
    Option TicTacToeBoard :=
  if tb.IsGameOver then some tb
  else if !(tb.InBounds x y) then some tb
  else
    (readCell? tb.board x y).bind fun cell =>
      if cell != 0 then some tb
      else if tb.freeSpots == 0 then some tb
      else
        (writeCell? tb.board x y player).bind fun board1 =>
          let tb1 : TicTacToeBoard :=
            { tb with board := board1, freeSpots := tb.freeSpots - 1 }
          (scanWinCheckedAux tb1 x y player DirOffsets).bind fun found =>
            let tb2 := if found then { tb1 with winner := player } else tb1
            some (if tb2.winner == 0 && tb2.freeSpots == 0 then
                { tb2 with tie := true }
              else tb2)

end TicTacToeBoard

/-- The empty 3 by 3 board with win-line-length 3, the value of
`NewTicTacToeBoard 3 3 3`; used as a concrete test fixture. -/
def tb33 : TicTacToeBoard :=
  { winLineLength := 3
    board := [[0, 0, 0], [0, 0, 0], [0, 0, 0]]
    freeSpots := 9
    winner := 0
    tie := false }

/-- The empty 1 by 1 board with win-line-length 1, the value of
`NewTicTacToeBoard 1 1 1`; a single placement on it wins immediately. -/
def tb11 : TicTacToeBoard :=
  { winLineLength := 1
    board := [[0]]
    freeSpots := 1
    winner := 0
    tie := false }

/-- The board reached from `tb11` by placing mark `88` at the origin: a
finished game whose winner is `88`. -/
def tb11won : TicTacToeBoard := tb11.PlaceMove 0 0 88

/-- The empty 2 by 2 board with win-line-length 3, the value of
`NewTicTacToeBoard 3 2 2`. -/
def tb22 : TicTacToeBoard :=
  { winLineLength := 3
    board := [[0, 0], [0, 0]]
    freeSpots := 4
    winner := 0
    tie := false }

/-- A 2 by 2 board with win-line-length 3 on which three marks have been
placed and only cell `(1, 1)` is free; no run of length 3 is possible, so
filling the last cell ties the game. -/
def tb22full3 : TicTacToeBoard :=
  { winLineLength := 3
    board := [[88, 79], [79, 0]]
    freeSpots := 1
    winner := 0
    tie := false }

/-- `countLines` of the duplicate-line utility: one scanner pass over the
lines of one input, incrementing `counts[line]` for each line.  The Go map is
embedded as a total function `String → Nat`; a key absent from the map reads
as the zero value `0`, as in Go. -/
def countLines (lines : List String) (counts : String → Nat) :
    String → Nat :=
  lines.foldl (fun cs line s => if s = line then cs s + 1 else cs s) counts

/-- The freshly made empty `counts` map of `main` in the utility. -/
def emptyCounts : String → Nat := fun _ => 0

/-- Whether `main`'s final loop prints line `s`: the loop ranges over the
accumulated map and prints precisely the entries whose count exceeds `1`
(a line that never occurred is not a key, and its zero count fails the test
either way). -/
def printedWhenDup (lines : List String) (s : String) : Bool :=
  decide (1 < countLines lines emptyCounts s)

/-- Lines the scanner yields for one named file of the utility's `main`.
`some ls` is a file that opened successfully; `none` is a failed `os.Open`.
On failure the code reports the error but still calls `countLines` on the
invalid (nil) handle; per Go's `os.File` semantics every read from it fails
immediately, so the scanner yields no lines. -/
def scannedLines : Option (List String) → List String
  | some ls => ls
  | none => []

/-- The counts accumulated by the utility's `main` over its argument files:
the per-file loop threads the one `counts` map through `countLines` for every
file in order, failed opens included. -/
def dupMainCounts (files : List (Option (List String))) : String → Nat :=
  files.foldl (fun cs f => countLines (scannedLines f) cs) emptyCounts

/-- Board states reachable by the program: a successful construction followed
by any sequence of `PlaceMove` calls. -/
inductive Reachable : TicTacToeBoard → Prop
  | init (L w h : Int) (tb : TicTacToeBoard) :
      NewTicTacToeBoard L w h = some tb → Reachable tb
  | step (tb : TicTacToeBoard) (x y p : Int) :
      Reachable tb → Reachable (tb.PlaceMove x y p)

namespace TicTacToeBoard

lemma inBounds_iff (tb : TicTacToeBoard) (x y : Int) :
    tb.InBounds x y = true ↔
      0 ≤ x ∧ x < (tb.width : Int) ∧ 0 ≤ y ∧ y < (tb.height : Int) := by
  simp [InBounds, and_assoc]

lemma accepted_iff_guard (tb : TicTacToeBoard) (x y : Int) :
    tb.Accepted x y ↔
      (tb.IsGameOver || !(tb.InBounds x y) || tb.getCell x y != 0 ||
        tb.freeSpots == 0) = false := by
  simp [Accepted, and_assoc]

lemma accepted_winner_tie {tb : TicTacToeBoard} {x y : Int}
    (h : tb.Accepted x y) : tb.winner = 0 ∧ tb.tie = false := by
  have h1 := h.1
  simp [IsGameOver] at h1
  exact ⟨h1.2, h1.1⟩

lemma placeMove_rejected (tb : TicTacToeBoard) (x y p : Int)
    (h : ¬ tb.Accepted x y) : tb.PlaceMove x y p = tb := by
  rw [accepted_iff_guard] at h
  simp only [Bool.not_eq_false] at h
  unfold PlaceMove
  rw [h]
  simp

lemma placeMove_accepted_eq (tb : TicTacToeBoard) (x y p : Int)
    (h : tb.Accepted x y) :
    tb.PlaceMove x y p =
      { winLineLength := tb.winLineLength
        board := setCell tb.board x y p
        freeSpots := tb.freeSpots - 1
        winner := if (tb.afterMark x y p).scanWin x y p then p else 0
        tie := ((if (tb.afterMark x y p).scanWin x y p then p else 0) == 0 &&
          (tb.freeSpots - 1 == 0)) } := by
  have hg := (accepted_iff_guard tb x y).mp h
  have hw := (accepted_winner_tie h).1
  have ht := (accepted_winner_tie h).2
  unfold PlaceMove
  rw [hg]
  simp only [Bool.false_eq_true, if_false]
  cases hscan : (tb.afterMark x y p).scanWin x y p <;>
    simp only [afterMark, hscan, if_true, if_false] <;>
    cases hcond : (tb.freeSpots - 1 == 0) <;>
    · simp only [hw, ht]
      split <;> simp_all [afterMark]

lemma placeMove_accepted_freeSpots (tb : TicTacToeBoard) (x y p : Int)
    (h : tb.Accepted x y) :
    (tb.PlaceMove x y p).freeSpots = tb.freeSpots - 1 := by
  rw [placeMove_accepted_eq tb x y p h]

lemma placeMove_accepted_winner (tb : TicTacToeBoard) (x y p : Int)
    (h : tb.Accepted x y) :
    (tb.PlaceMove x y p).winner =
      if (tb.afterMark x y p).scanWin x y p then p else 0 := by
  rw [placeMove_accepted_eq tb x y p h]

lemma placeMove_accepted_tie (tb : TicTacToeBoard) (x y p : Int)
    (h : tb.Accepted x y) :
    (tb.PlaceMove x y p).tie =
      (((if (tb.afterMark x y p).scanWin x y p then p else 0) == 0) &&
        (tb.freeSpots - 1 == 0)) := by
  rw [placeMove_accepted_eq tb x y p h]

end TicTacToeBoard

/-- C2: for every board, calling `PlaceMove` when the game is already over,
when the coordinate is out of bounds, when the target cell is already
occupied, or when no free cells remain, returns the board completely
unchanged (the function is total, so no error is raised). -/
theorem placeMove_noop_of_invalid (tb : TicTacToeBoard) (x y p : Int)
    (h : tb.IsGameOver = true ∨ tb.InBounds x y = false ∨
      tb.GetMark x y ≠ 0 ∨ tb.freeSpots = 0) :
    tb.PlaceMove x y p = tb := by
  apply TicTacToeBoard.placeMove_rejected
  rintro ⟨h1, h2, h3, h4⟩
  rcases h with h | h | h | h
  · rw [h1] at h; cases h
  · rw [h2] at h; cases h
  · apply h; simp [TicTacToeBoard.GetMark, h2, h3]
  · exact h4 h

/-- Witness for C2: on the fresh 3 by 3 board, `(5, 5)` is out of bounds and
placing there changes nothing. -/
theorem placeMove_noop_of_invalid_witness :
    tb33.InBounds 5 5 = false ∧ tb33.PlaceMove 5 5 88 = tb33 :=
  ⟨by decide,
    placeMove_noop_of_invalid tb33 5 5 88 (Or.inr (Or.inl (by decide)))⟩

/-- C5: every accepted placement decreases the free-cell count by exactly 1,
and every rejected placement leaves the free-cell count unchanged. -/
theorem placeMove_freeSpots_delta (tb : TicTacToeBoard) (x y p : Int) :
    (tb.Accepted x y →
      (tb.PlaceMove x y p).freeSpots = tb.freeSpots - 1) ∧
    (¬ tb.Accepted x y →
      (tb.PlaceMove x y p).freeSpots = tb.freeSpots) := by
  constructor
  · exact fun h => TicTacToeBoard.placeMove_accepted_freeSpots tb x y p h
  · intro h; rw [TicTacToeBoard.placeMove_rejected tb x y p h]

/-- Witness for C5: placing at the origin of the fresh 3 by 3 board is
accepted and drops the free-cell count from 9 to 8. -/
theorem placeMove_freeSpots_delta_witness :
    tb33.Accepted 0 0 ∧ (tb33.PlaceMove 0 0 88).freeSpots = tb33.freeSpots - 1 :=
  ⟨by decide, (placeMove_freeSpots_delta tb33 0 0 88).1 (by decide)⟩

/-- C3 counterexample: on the fresh 3 by 3 board the coordinate `(5, 5)` is
out of bounds, yet `IsSpotEmpty 5 5` returns `true`, refuting the claim that
`IsSpotEmpty` returns `false` for every out-of-bounds coordinate (`GetMark`
returns the empty sentinel `0` out of bounds, and `IsSpotEmpty` compares the
result with `0`). -/
theorem isSpotEmpty_oob_counterexample :
    tb33.InBounds 5 5 = false ∧ tb33.IsSpotEmpty 5 5 = true := by decide

/-- C3 amended: `IsSpotEmpty x y` returns `true` iff `(x, y)` is out of
bounds, or is in bounds and the cell there holds no player's mark; in
particular it returns `true` (not `false`) for every out-of-bounds
coordinate. -/
theorem isSpotEmpty_iff (tb : TicTacToeBoard) (x y : Int) :
    tb.IsSpotEmpty x y = true ↔
      (tb.InBounds x y = false ∨
        (tb.InBounds x y = true ∧ tb.getCell x y = 0)) := by
  cases h : tb.InBounds x y <;>
    simp [TicTacToeBoard.IsSpotEmpty, TicTacToeBoard.GetMark, h]

/-- C4 counterexample: `NewTicTacToeBoard` with the negative win-line-length
`-1` and a 1 by 1 board succeeds (no panic), refuting the claim that
construction is fatal whenever the win-line-length is not at least 1: the
source rejects only `winLineLength == 0`. -/
theorem newBoard_negative_winLineLength_counterexample :
    (NewTicTacToeBoard (-1) 1 1).isSome = true := by decide

/-- C4 amended: construction is a fatal error exactly when a dimension is
less than 1 or the win-line-length equals 0; every successful construction
yields a board with the given threshold, every cell empty, free-cell count
`width * height`, and no winner or tie. -/
theorem newTicTacToeBoard_spec (L w h : Int) :
    (NewTicTacToeBoard L w h = none ↔ (L = 0 ∨ w < 1 ∨ h < 1)) ∧
    (∀ tb, NewTicTacToeBoard L w h = some tb →
      tb.winLineLength = L ∧ tb.freeSpots = w * h ∧
      tb.height = h.toNat ∧ (∀ row ∈ tb.board, row.length = w.toNat) ∧
      (∀ row ∈ tb.board, ∀ c ∈ row, c = 0) ∧
      tb.winner = 0 ∧ tb.tie = false) := by
  unfold NewTicTacToeBoard
  constructor
  · split <;> rename_i h1
    · simp only [beq_iff_eq] at h1
      simp [h1]
    · split <;> rename_i h2 <;> simp_all
  · intro tb htb
    split at htb
    · cases htb
    · split at htb
      · cases htb
      · cases htb
        refine ⟨rfl, rfl, ?_, ?_, ?_, rfl, rfl⟩
        · simp [TicTacToeBoard.height]
        · intro row hrow
          rw [List.eq_of_mem_replicate hrow]
          simp
        · intro row hrow c hc
          rw [List.eq_of_mem_replicate hrow] at hc
          exact List.eq_of_mem_replicate hc

/-- Witness for C4 amended: the 2 by 2 board with threshold 3 is constructed
successfully and satisfies every clause. -/
theorem newTicTacToeBoard_spec_witness :
    NewTicTacToeBoard 3 2 2 = some tb22 ∧
      (tb22.winLineLength = 3 ∧ tb22.freeSpots = 2 * 2 ∧
        tb22.height = (2 : Int).toNat ∧
        (∀ row ∈ tb22.board, row.length = (2 : Int).toNat) ∧
        (∀ row ∈ tb22.board, ∀ c ∈ row, c = 0) ∧
        tb22.winner = 0 ∧ tb22.tie = false) :=
  ⟨by decide, (newTicTacToeBoard_spec 3 2 2).2 tb22 (by decide)⟩

namespace TicTacToeBoard

lemma afterMark_winLineLength (tb : TicTacToeBoard) (x y p : Int) :
    (tb.afterMark x y p).winLineLength = tb.winLineLength := rfl

lemma scanWinAux_iff (tb : TicTacToeBoard) (x y p : Int)
    (l : List (Int × Int)) :
    scanWinAux tb x y p l = true ↔
      ∃ d ∈ l, tb.winLineLength ≤
        1 + tb.getLineLength p x y d.1 d.2 +
          tb.getLineLength p x y (-d.1) (-d.2) := by
  induction l with
  | nil => simp [scanWinAux]
  | cons d rest ih =>
    simp only [scanWinAux]
    split <;> rename_i hd
    · constructor
      · intro _
        exact ⟨d, List.mem_cons_self d rest, hd⟩
      · intro _; rfl
    · rw [ih]
      constructor
      · rintro ⟨e, he, hle⟩
        exact ⟨e, List.mem_cons_of_mem d he, hle⟩
      · rintro ⟨e, he, hle⟩
        rcases List.mem_cons.mp he with rfl | he
        · exact absurd hle hd
        · exact ⟨e, he, hle⟩

lemma newBoard_winner_tie {L w h : Int} {tb : TicTacToeBoard}
    (htb : NewTicTacToeBoard L w h = some tb) :
    tb.winner = 0 ∧ tb.tie = false := by
  unfold NewTicTacToeBoard at htb
  split at htb
  · cases htb
  · split at htb
    · cases htb
    · cases htb
      exact ⟨rfl, rfl⟩

lemma placeMove_preserves_exclusive (tb : TicTacToeBoard) (x y p : Int)
    (hInv : ¬ (tb.winner ≠ 0 ∧ tb.tie = true)) :
    ¬ ((tb.PlaceMove x y p).winner ≠ 0 ∧ (tb.PlaceMove x y p).tie = true) := by
  by_cases hacc : tb.Accepted x y
  · rw [placeMove_accepted_eq tb x y p hacc]
    rintro ⟨hw, ht⟩
    simp only [Bool.and_eq_true, beq_iff_eq] at ht
    exact hw ht.1
  · rw [placeMove_rejected tb x y p hacc]
    exact hInv

end TicTacToeBoard

/-- C1: for every accepted placement of a player's mark `p` at `(x, y)`, the
winner is set to `p` iff for at least one of the four direction vectors the
total run length on the just-marked board — 1 for the placed cell, plus the
consecutive same-mark count strictly in that direction, plus the count
strictly in the opposite direction — reaches the configured win-line-length
(`scanWin` itself stops at the first qualifying direction). -/
theorem placeMove_winner_iff (tb : TicTacToeBoard) (x y p : Int)
    (hp : p ≠ 0) (h : tb.Accepted x y) :
    (tb.PlaceMove x y p).winner = p ↔
      ∃ d ∈ TicTacToeBoard.DirOffsets,
        tb.winLineLength ≤
          1 + (tb.afterMark x y p).getLineLength p x y d.1 d.2 +
            (tb.afterMark x y p).getLineLength p x y (-d.1) (-d.2) := by
  rw [TicTacToeBoard.placeMove_accepted_winner tb x y p h]
  have hiff := TicTacToeBoard.scanWinAux_iff (tb.afterMark x y p) x y p
    TicTacToeBoard.DirOffsets
  rw [TicTacToeBoard.afterMark_winLineLength] at hiff
  rw [← hiff]
  cases hs : (tb.afterMark x y p).scanWin x y p <;>
    simp only [TicTacToeBoard.scanWin] at hs <;> rw [hs]
  · simp [Ne.symm hp]
  · simp

/-- Witness for C1: on the fresh 3 by 3 board, placing mark `88` at the
origin is accepted, and the equivalence holds there. -/
theorem placeMove_winner_iff_witness :
    (88 : Int) ≠ 0 ∧ tb33.Accepted 0 0 ∧
      ((tb33.PlaceMove 0 0 88).winner = 88 ↔
        ∃ d ∈ TicTacToeBoard.DirOffsets,
          tb33.winLineLength ≤
            1 + (tb33.afterMark 0 0 88).getLineLength 88 0 0 d.1 d.2 +
              (tb33.afterMark 0 0 88).getLineLength 88 0 0 (-d.1) (-d.2)) :=
  ⟨by decide, by decide, placeMove_winner_iff tb33 0 0 88 (by decide) (by decide)⟩

/-- C6: in every reachable board state the winner symbol and the tie flag
are never both set, and once either is set every later `PlaceMove` returns
the state unchanged, so neither ever changes again. -/
theorem reachable_winner_tie_exclusive (tb : TicTacToeBoard)
    (h : Reachable tb) :
    ¬ (tb.winner ≠ 0 ∧ tb.tie = true) ∧
    (∀ x y p : Int, (tb.winner ≠ 0 ∨ tb.tie = true) →
      tb.PlaceMove x y p = tb) := by
  constructor
  · induction h with
    | init L w h tb htb =>
      rintro ⟨hw, _⟩
      exact hw (TicTacToeBoard.newBoard_winner_tie htb).1
    | step tb x y p _ ih =>
      exact TicTacToeBoard.placeMove_preserves_exclusive tb x y p ih
  · intro x y p hover
    apply TicTacToeBoard.placeMove_rejected
    rintro ⟨h1, _, _, _⟩
    simp only [TicTacToeBoard.IsGameOver, Bool.or_eq_false_iff,
      bne_eq_false_iff_eq] at h1
    rcases hover with hw | ht
    · exact hw h1.2
    · rw [h1.1] at ht; cases ht

/-- Witness for C6: the board reached by winning the 1 by 1 game is
reachable, satisfies mutual exclusion, and ignores a further placement. -/
theorem reachable_winner_tie_exclusive_witness :
    ¬ (tb11won.winner ≠ 0 ∧ tb11won.tie = true) ∧
      tb11won.PlaceMove 0 0 79 = tb11won := by
  have hr : Reachable tb11won :=
    Reachable.step tb11 0 0 88 (Reachable.init 1 1 1 tb11 (by decide))
  have h := reachable_winner_tie_exclusive tb11won hr
  exact ⟨h.1, h.2 0 0 79 (Or.inl (by decide))⟩

/-- C7: an accepted placement of a player's mark sets the tie flag iff it
filled the last free cell (free-cell count was 1) and no direction's total
run reached the win-line-length; the tie then comes with an unset winner,
and a rejected placement never changes the tie flag. -/
theorem placeMove_tie_iff (tb : TicTacToeBoard) (x y p : Int) (hp : p ≠ 0) :
    (tb.Accepted x y →
      (((tb.PlaceMove x y p).tie = true ↔
        (tb.freeSpots = 1 ∧
          ¬ ∃ d ∈ TicTacToeBoard.DirOffsets,
            tb.winLineLength ≤
              1 + (tb.afterMark x y p).getLineLength p x y d.1 d.2 +
                (tb.afterMark x y p).getLineLength p x y (-d.1) (-d.2))) ∧
        ((tb.PlaceMove x y p).tie = true → (tb.PlaceMove x y p).winner = 0))) ∧
    (¬ tb.Accepted x y → (tb.PlaceMove x y p).tie = tb.tie) := by
  constructor
  · intro hacc
    have hiff := TicTacToeBoard.scanWinAux_iff (tb.afterMark x y p) x y p
      TicTacToeBoard.DirOffsets
    rw [TicTacToeBoard.afterMark_winLineLength] at hiff
    rw [TicTacToeBoard.placeMove_accepted_tie tb x y p hacc,
      TicTacToeBoard.placeMove_accepted_winner tb x y p hacc, ← hiff]
    cases hs : (tb.afterMark x y p).scanWin x y p <;>
      simp only [TicTacToeBoard.scanWin] at hs
    · simp [hs, hp]
      omega
    · simp [hs, hp]
  · intro hacc
    rw [TicTacToeBoard.placeMove_rejected tb x y p hacc]

/-- Witness for C7: filling the final cell of the full 2 by 2 board with
threshold 3 is accepted, produces no qualifying run, and ties the game. -/
theorem placeMove_tie_iff_witness :
    (88 : Int) ≠ 0 ∧ tb22full3.Accepted 1 1 ∧
      ((tb22full3.PlaceMove 1 1 88).tie = true ↔
        (tb22full3.freeSpots = 1 ∧
          ¬ ∃ d ∈ TicTacToeBoard.DirOffsets,
            tb22full3.winLineLength ≤
              1 + (tb22full3.afterMark 1 1 88).getLineLength 88 1 1 d.1 d.2 +
                (tb22full3.afterMark 1 1 88).getLineLength 88 1 1 (-d.1) (-d.2))) :=
  ⟨by decide, by decide,
    ((placeMove_tie_iff tb22full3 1 1 88 (by decide)).1 (by decide)).1⟩

lemma countLines_count (lines : List String) (counts : String → Nat)
    (s : String) :
    countLines lines counts s = counts s + lines.count s := by
  induction lines generalizing counts with
  | nil => simp [countLines]
  | cons a l ih =>
    show countLines l (fun s => if s = a then counts s + 1 else counts s) s =
      counts s + (a :: l).count s
    rw [ih, List.count_cons]
    by_cases hs : s = a
    · simp [hs]
      omega
    · simp [hs, Ne.symm hs]

lemma dupFold_skip (files : List (Option (List String)))
    (cs : String → Nat) :
    files.foldl (fun cs f => countLines (scannedLines f) cs) cs =
      ((files.filterMap id).map some).foldl
        (fun cs f => countLines (scannedLines f) cs) cs := by
  induction files generalizing cs with
  | nil => rfl
  | cons f rest ih =>
    cases f with
    | none =>
      have hfm : (none :: rest).filterMap
          (id : Option (List String) → Option (List String)) =
          rest.filterMap id := by
        simp
      rw [hfm]
      show rest.foldl (fun cs f => countLines (scannedLines f) cs)
          (countLines [] cs) = _
      exact ih cs
    | some ls =>
      have hfm : (some ls :: rest).filterMap
          (id : Option (List String) → Option (List String)) =
          ls :: rest.filterMap id := by
        simp
      rw [hfm]
      simp only [List.foldl_cons, List.map_cons]
      exact ih _

lemma dupFold_count (files : List (Option (List String)))
    (cs : String → Nat) (s : String) :
    files.foldl (fun cs f => countLines (scannedLines f) cs) cs s =
      cs s + ((files.map scannedLines).flatten).count s := by
  induction files generalizing cs with
  | nil => simp
  | cons f rest ih =>
    simp only [List.foldl_cons, List.map_cons, List.flatten_cons]
    rw [ih, countLines_count, List.count_append]
    omega

lemma join_map_scannedLines (files : List (Option (List String))) :
    (files.map scannedLines).flatten = (files.filterMap id).flatten := by
  induction files with
  | nil => rfl
  | cons f rest ih =>
    cases f <;> simp [scannedLines, ih]

/-- C8: after one pass of `countLines` over the input lines starting from the
empty map, the count recorded for each line equals its exact number of
occurrences in the input, and a line is printed iff its count exceeds 1. -/
theorem countLines_spec (lines : List String) (s : String) :
    countLines lines emptyCounts s = lines.count s ∧
    (printedWhenDup lines s = true ↔ 1 < lines.count s) := by
  have h := countLines_count lines emptyCounts s
  constructor
  · simpa [emptyCounts] using h
  · simp only [printedWhenDup, h, emptyCounts, decide_eq_true_eq]
    omega

/-- C10: the counts the utility accumulates over its argument files are the
same as if every file that failed to open had not been listed at all — a
failed file contributes nothing, and the pass continues over the remaining
files; equivalently, each count equals the number of occurrences of the line
across the successfully opened files. -/
theorem dupMainCounts_skips_failed (files : List (Option (List String)))
    (s : String) :
    dupMainCounts files s =
      dupMainCounts ((files.filterMap id).map some) s ∧
    dupMainCounts files s = ((files.filterMap id).flatten).count s := by
  constructor
  · unfold dupMainCounts
    rw [dupFold_skip]
  · unfold dupMainCounts
    rw [dupFold_count, join_map_scannedLines]
    simp [emptyCounts]

namespace TicTacToeBoard

lemma readCell?_of_inBounds {tb : TicTacToeBoard} {x y : Int}
    (hwf : tb.WF) (hin : tb.InBounds x y = true) :
    readCell? tb.board x y = some (tb.getCell x y) := by
  rw [inBounds_iff] at hin
  obtain ⟨hx0, hxw, hy0, hyh⟩ := hin
  have hy : y.toNat < tb.board.length := by
    simp only [height] at hyh
    omega
  have hrow : tb.board.get? y.toNat = some (tb.board.get ⟨y.toNat, hy⟩) :=
    List.get?_eq_get hy
  have hmem : tb.board.get ⟨y.toNat, hy⟩ ∈ tb.board := List.get_mem _ _ _
  have hx : x.toNat < (tb.board.get ⟨y.toNat, hy⟩).length := by
    rw [hwf.2 _ hmem]
    omega
  unfold readCell? getCell
  rw [if_pos ⟨hx0, hy0⟩, hrow]
  rw [Option.some_bind, List.get?_eq_get hx]
  rw [List.getD_eq_getD_get?, List.getD_eq_getD_get?, hrow]
  rw [Option.getD_some, List.get?_eq_get hx, Option.getD_some]

lemma writeCell?_of_inBounds {tb : TicTacToeBoard} {x y : Int}
    (hwf : tb.WF) (hin : tb.InBounds x y = true) (v : Int) :
    writeCell? tb.board x y v = some (setCell tb.board x y v) := by
  rw [inBounds_iff] at hin
  obtain ⟨hx0, hxw, hy0, hyh⟩ := hin
  have hy : y.toNat < tb.board.length := by
    simp only [height] at hyh
    omega
  have hrow : tb.board.get? y.toNat = some (tb.board.get ⟨y.toNat, hy⟩) :=
    List.get?_eq_get hy
  have hmem : tb.board.get ⟨y.toNat, hy⟩ ∈ tb.board := List.get_mem _ _ _
  have hx : x.toNat < (tb.board.get ⟨y.toNat, hy⟩).length := by
    rw [hwf.2 _ hmem]
    omega
  unfold writeCell? setCell
  rw [if_pos ⟨hx0, hy0⟩, hrow]
  rw [Option.some_bind, List.get?_eq_get hx, Option.map_some']
  rw [List.getD_eq_getD_get?, hrow, Option.getD_some]

lemma width_afterMark (tb : TicTacToeBoard) (x y p : Int) :
    (tb.afterMark x y p).width = tb.width := by
  show ((setCell tb.board x y p).headD []).length = (tb.board.headD []).length
  unfold setCell
  cases tb.board with
  | nil => rfl
  | cons r rs =>
    cases hy : y.toNat with
    | zero => simp
    | succ n => simp

lemma afterMark_WF {tb : TicTacToeBoard} {x y : Int}
    (hwf : tb.WF) (hin : tb.InBounds x y = true) (p : Int) :
    (tb.afterMark x y p).WF := by
  have hb := hin
  rw [inBounds_iff] at hb
  obtain ⟨hx0, hxw, hy0, hyh⟩ := hb
  have hy : y.toNat < tb.board.length := by
    simp only [height] at hyh
    omega
  constructor
  · show 0 < (setCell tb.board x y p).length
    unfold setCell
    rw [List.length_set]
    exact hwf.1
  · intro row hrow
    rw [width_afterMark]
    rcases List.mem_or_eq_of_mem_set hrow with hmem | hnew
    · exact hwf.2 _ hmem
    · rw [hnew, List.length_set]
      rw [List.getD_eq_getD_get?, List.get?_eq_get hy, Option.getD_some]
      exact hwf.2 _ (List.get_mem _ _ _)

lemma getLineLengthCheckedAux_eq (tb : TicTacToeBoard) (hwf : tb.WF)
    (p : Int) :
    ∀ fuel x y xo yo,
      getLineLengthCheckedAux tb p fuel x y xo yo =
        some (getLineLengthAux tb p fuel x y xo yo) := by
  intro fuel
  induction fuel with
  | zero => intro x y xo yo; rfl
  | succ n ih =>
    intro x y xo yo
    simp only [getLineLengthCheckedAux, getLineLengthAux]
    cases hin : tb.InBounds x y
    · simp
    · rw [if_pos rfl, readCell?_of_inBounds hwf hin, Option.some_bind]
      cases hc : tb.getCell x y == p
      · simp [hc]
      · simp [hc, ih]

lemma getLineLengthChecked_eq {tb : TicTacToeBoard} (hwf : tb.WF)
    (p x y xo yo : Int) :
    tb.getLineLengthChecked p x y xo yo =
      some (tb.getLineLength p x y xo yo) :=
  getLineLengthCheckedAux_eq tb hwf p _ _ _ _ _

lemma scanWinCheckedAux_eq {tb : TicTacToeBoard} (hwf : tb.WF)
    (x y p : Int) :
    ∀ l, scanWinCheckedAux tb x y p l = some (scanWinAux tb x y p l) := by
  intro l
  induction l with
  | nil => rfl
  | cons d rest ih =>
    simp only [scanWinCheckedAux, scanWinAux]
    rw [getLineLengthChecked_eq hwf, Option.some_bind,
      getLineLengthChecked_eq hwf, Option.some_bind]
    split
    · rfl
    · exact ih

lemma getMarkChecked_eq {tb : TicTacToeBoard} (hwf : tb.WF) (x y : Int) :
    GetMarkChecked tb x y = some (tb.GetMark x y) := by
  unfold GetMarkChecked GetMark
  cases hin : tb.InBounds x y
  · simp
  · simp [readCell?_of_inBounds hwf hin]

lemma placeMoveChecked_eq {tb : TicTacToeBoard} (hwf : tb.WF) (x y p : Int) :
    PlaceMoveChecked tb x y p = some (tb.PlaceMove x y p) := by
  unfold PlaceMoveChecked PlaceMove
  cases hgo : tb.IsGameOver
  case true => simp
  case false =>
    cases hin : tb.InBounds x y
    case false => simp
    case true =>
      rw [if_neg (by simp), if_neg (by simp), readCell?_of_inBounds hwf hin,
        Option.some_bind]
      cases hc : tb.getCell x y != 0
      case true => simp [hc]
      case false =>
        cases hf : tb.freeSpots == 0
        case true => simp [hc, hf]
        case false =>
          rw [if_neg (by simp [hc]), if_neg (by simp [hf]),
            if_neg (by simp [hc, hf]),
            writeCell?_of_inBounds hwf hin p, Option.some_bind]
          have hwf1 :
              TicTacToeBoard.WF
                { tb with board := setCell tb.board x y p
                          freeSpots := tb.freeSpots - 1 } :=
            afterMark_WF hwf hin p
          simp only [scanWinCheckedAux_eq hwf1 x y p DirOffsets,
            Option.some_bind, afterMark, scanWin]

end TicTacToeBoard

/-- C9: on every well-formed board (as produced by construction), every grid
access performed by `GetMark`, `PlaceMove` and its run-length scan is in
range: the variants that fail on any unguarded out-of-range access instead
succeed and agree with the functions themselves, for arbitrary (arbitrarily
large or negative) coordinate arguments. -/
theorem grid_access_safe (tb : TicTacToeBoard) (hwf : tb.WF) (x y p : Int) :
    TicTacToeBoard.GetMarkChecked tb x y = some (tb.GetMark x y) ∧
    TicTacToeBoard.PlaceMoveChecked tb x y p = some (tb.PlaceMove x y p) :=
  ⟨TicTacToeBoard.getMarkChecked_eq hwf x y,
    TicTacToeBoard.placeMoveChecked_eq hwf x y p⟩

/-- Witness for C9: the fresh 3 by 3 board is well formed, and the checked
accesses succeed even at a far out-of-bounds coordinate. -/
theorem grid_access_safe_witness :
    tb33.WF ∧
      TicTacToeBoard.GetMarkChecked tb33 (-7) 1000000 =
        some (tb33.GetMark (-7) 1000000) ∧
      TicTacToeBoard.PlaceMoveChecked tb33 (-7) 1000000 88 =
        some (tb33.PlaceMove (-7) 1000000 88) :=
  ⟨by decide, (grid_access_safe tb33 (by decide) (-7) 1000000 88).1,
    (grid_access_safe tb33 (by decide) (-7) 1000000 88).2⟩
